import Mathlib

/-!
Shallow embedding of the crit_graph repository's entity-resolution and
graph-consolidation pipeline, translated from
`src/CR_character_graph.py`, `src/CR_episode_graph.py`,
`src/char_graph.py` and `src/json_to_gml.py`, together with proofs of
the spec's testable properties about it.
-/

namespace CritGraph

/-- The label-to-kind table `RELATIONSHIP_MAP` of
`CR_character_graph.py` (lines 41-57), as an association list. -/
def RELATIONSHIP_MAP : List (String × String) := [
  ("family", "Family"),
  ("romantic_partner", "Romantic Partner"),
  ("close_friend", "Ally"),
  ("ally", "Ally"),
  ("served_together", "Ally"),
  ("mentor_student", "Ally"),
  ("enemy", "Enemy"),
  ("rival", "Enemy"),
  ("complicated", "Complicated"),
  ("member_of", "Member Of"),
  ("leads", "Member Of"),
  ("aspirant_of", "Member Of"),
  ("serves_in", "Member Of"),
  ("founded", "Member Of"),
  ("associated_with", "Associated With")]

/-- `self.RELATIONSHIP_MAP.get(t, 'Associated With')`: look a raw label
up in the table, defaulting to `Associated With` for unmapped labels. -/
def mapKind (t : String) : String :=
  (RELATIONSHIP_MAP.lookup t).getD "Associated With"

/-- The fixed precedence list `PRECEDENCE` of `CR_character_graph.py`
(line 59), most important kind first. -/
def PRECEDENCE : List String :=
  ["Enemy", "Family", "Romantic Partner", "Ally", "Complicated", "Member Of",
   "Associated With"]

/-- `get_strongest_relationship` (`CR_character_graph.py` lines 685-691):
map every raw type through the table, then return the first precedence
entry present in the mapped set.  Membership in the Python set
`new_types` coincides with membership in the mapped list, so the set is
represented by the list itself. -/
def get_strongest_relationship (rel_types : List String) : String :=
  let new_types := rel_types.map mapKind
  match PRECEDENCE.find? (fun rel => new_types.contains rel) with
  | some rel => rel
  | none => "Associated With"

/-- Removal of every occurrence of `"/wiki/"`, left to right, as
performed by `normalized.replace('/wiki/', '')`. -/
def removeWiki : List Char → List Char
  | '/' :: 'w' :: 'i' :: 'k' :: 'i' :: '/' :: rest => removeWiki rest
  | c :: rest => c :: removeWiki rest
  | [] => []

/-- `normalize_page_title` (`CR_character_graph.py` lines 182-194,
`char_graph.py` lines 51-68): strip a `#` fragment and a `?` query,
percent-decode, replace spaces with underscores, remove `/wiki/`, strip
trailing slashes.  `urllib.parse.unquote` is an external library call
and is modelled by the uninterpreted parameter `unquote` (it is the
identity on percent-free titles). -/
def normalize_page_title (unquote : String → String) (page_title : String) : String :=
  let t1 := String.mk (page_title.toList.takeWhile (fun c => c ≠ '#'))
  let t2 := String.mk (t1.toList.takeWhile (fun c => c ≠ '?'))
  let n1 := unquote t2
  let n2 := String.mk (n1.toList.map (fun c => if c = ' ' then '_' else c))
  let n3 := String.mk (removeWiki n2.toList)
  String.mk ((n3.toList.reverse.dropWhile (fun c => c = '/')).reverse)

/-- First-match association-list lookup with string keys: the
behaviour of a Python `dict` membership test plus indexing (keys are
unique by insertion discipline, so first match is the match). -/
def slookup {β : Type} (m : List (String × β)) (k : String) : Option β :=
  match m with
  | [] => none
  | (k', v) :: rest => if k' = k then some v else slookup rest k

/-- `get_canonical_name` (`CR_character_graph.py` lines 196-201,
`char_graph.py` lines 70-76): normalize, then return the alias-map
entry when present, else the normalized title itself. -/
def get_canonical_name (unquote : String → String)
    (alias_map : List (String × String)) (page_title : String) : String :=
  let normalized := normalize_page_title unquote page_title
  match slookup alias_map normalized with
  | some c => c
  | none => normalized

/-- One raw relationship discovery: the `{'target': ..., 'types': ...}`
dicts produced by the extraction passes. -/
structure RawRel where
  target : String
  types : List String
deriving DecidableEq

/-- First-match association-list lookup keyed by an ordered pair of
canonical ids. -/
def alookup (m : List ((String × String) × List String)) (k : String × String) :
    Option (List String) :=
  match m with
  | [] => none
  | (k', v) :: rest => if k' = k then some v else alookup rest k

/-- `final_rels[(source, target)].extend(rel_types)` on a
`defaultdict(list)` represented as an insertion-ordered association
list: append to the existing entry, or append a fresh entry at the
end. -/
def extendEntry (m : List ((String × String) × List String))
    (k : String × String) (v : List String) :
    List ((String × String) × List String) :=
  match m with
  | [] => [(k, v)]
  | (k', v') :: rest =>
    if k' = k then (k', v' ++ v) :: rest
    else (k', v') :: extendEntry rest k v

/-- The Phase-3 grouping loop of `build_graph`
(`CR_character_graph.py` lines 833-841): fold every contributing pair
into the `final_rels` dictionary. -/
def aggregate (pairs : List ((String × String) × List String)) :
    List ((String × String) × List String) :=
  pairs.foldl (fun m kv => extendEntry m kv.1 kv.2) []

/-- The per-relationship body of the Phase-3 loop
(`CR_character_graph.py` lines 834-841): each buffered
`(source_canonical, rel)` entry of `all_relationships` contributes its
`(source, target_canonical)` pair and raw types exactly when both
endpoints are entries of the entity store. -/
def phase3Pairs (unquote : String → String) (alias_map : List (String × String))
    (entities : List String) (raws : List (String × RawRel)) :
    List ((String × String) × List String) :=
  raws.filterMap (fun sr =>
    if sr.1 ∈ entities ∧
        get_canonical_name unquote alias_map
          (normalize_page_title unquote sr.2.target) ∈ entities then
      some ((sr.1,
             get_canonical_name unquote alias_map
               (normalize_page_title unquote sr.2.target)),
            sr.2.types)
    else none)

/-- The edge set at the end of Phase 3 (`CR_character_graph.py` lines
843-844 with `add_relationship`, lines 693-720): `add_relationship` is
called once per aggregated ordered pair; it returns without adding when
the target is not in the entity store, and otherwise stores the single
strongest kind under the `(source, target)` key — networkx
`DiGraph.add_edge` keys edges by the ordered pair, and every strongest
kind has an entry in `RELATIONSHIP_STYLES`, so the style guard never
fires. -/
def consolidatedEdges (entities : List String)
    (pairs : List ((String × String) × List String)) :
    List ((String × String) × String) :=
  (aggregate pairs).filterMap (fun kv =>
    if kv.1.2 ∈ entities then some (kv.1, get_strongest_relationship kv.2)
    else none)

/-- Phase 3 end to end: from the buffered raw relationships to the
consolidated edge set. -/
def build_edges (unquote : String → String) (alias_map : List (String × String))
    (entities : List String) (raws : List (String × RawRel)) :
    List ((String × String) × String) :=
  consolidatedEdges entities (phase3Pairs unquote alias_map entities raws)

/-!  Episode-graph resolver (`CR_episode_graph.py`).  Confidences are
modelled in `ℚ`; the Python floats at play (0.25, 0.35, 0.4, 0.5, 0.85
and the weights) compare the same way as their rational readings at
every comparison the claims exercise. -/

/-- Python regex `\w` restricted to ASCII word characters.  The wiki
titles the episode patterns are applied to are ASCII; restricting the
unicode-aware Python class only under-approximates it, so every title
this matcher accepts is accepted by the source patterns. -/
def isWordChar (c : Char) : Bool := c.isAlphanum || c = '_'

/-- One-or-more repetition of a character class at the front of the
input: `none` when the first character fails the class, otherwise the
rest after the maximal run.  In all three `episode_patterns` every
repeated class is disjoint from the token that follows it, so maximal
munch coincides with the regex's backtracking semantics. -/
def chompPlus (p : Char → Bool) : List Char → Option (List Char)
  | [] => none
  | c :: rest => if p c then some (rest.dropWhile p) else none

/-- A case-insensitive literal at the front of the input
(`re.IGNORECASE`); the literal is given lower-case. -/
def chompLit : List Char → List Char → Option (List Char)
  | [], cs => some cs
  | _ :: _, [] => none
  | l :: ls, c :: cs => if c.toLower = l then chompLit ls cs else none

/-- `^The\s+\w+\s+of\s+` with `re.IGNORECASE`
(`episode_patterns[0]`, `CR_episode_graph.py` lines 68-72); `\s` and
`\w` are modelled by their ASCII subsets. -/
def matchesEpisodePattern1 (cs : List Char) : Bool :=
  (do
    let cs ← chompLit ['t', 'h', 'e'] cs
    let cs ← chompPlus Char.isWhitespace cs
    let cs ← chompPlus isWordChar cs
    let cs ← chompPlus Char.isWhitespace cs
    let cs ← chompLit ['o', 'f'] cs
    let _ ← chompPlus Char.isWhitespace cs
    pure ()).isSome

/-- `^A\s+\w+\s+of\s+` (`episode_patterns[1]`). -/
def matchesEpisodePattern2 (cs : List Char) : Bool :=
  (do
    let cs ← chompLit ['a'] cs
    let cs ← chompPlus Char.isWhitespace cs
    let cs ← chompPlus isWordChar cs
    let cs ← chompPlus Char.isWhitespace cs
    let cs ← chompLit ['o', 'f'] cs
    let _ ← chompPlus Char.isWhitespace cs
    pure ()).isSome

/-- `^\w+\s+\d+x\d+` (`episode_patterns[2]`). -/
def matchesEpisodePattern3 (cs : List Char) : Bool :=
  (do
    let cs ← chompPlus isWordChar cs
    let cs ← chompPlus Char.isWhitespace cs
    let cs ← chompPlus Char.isDigit cs
    let cs ← chompLit ['x'] cs
    let _ ← chompPlus Char.isDigit cs
    pure ()).isSome

/-- `is_episode_title` (`CR_episode_graph.py` lines 199-204): true when
any of the three `episode_patterns` matches at the start of the
title. -/
def is_episode_title (title : String) : Bool :=
  matchesEpisodePattern1 title.toList || matchesEpisodePattern2 title.toList ||
    matchesEpisodePattern3 title.toList

/-- The oracle-and-page inputs `detect_page_type` consumes after its
title short-circuit: whether the page yielded any infobox or paragraph
text, and the `{"type", "confidence"}` classification the LLM oracle
returns for that text (a failed request or unparsable response is the
pair `("unknown", 0)` per the error branches, which the caller may
present through these same fields). -/
structure TypeOracle where
  hasText : Bool
  llmType : String
  llmConfidence : ℚ

/-- `detect_page_type` (`CR_episode_graph.py` lines 206-297): a title
matching an episode pattern is classified `episode` with confidence
1.0 before any page text is read or the LLM oracle is consulted;
otherwise a textless page is `unknown, 0.0`, else the LLM's
classification is returned. -/
def detect_page_type (oracle : TypeOracle) (page_title : String) : String × ℚ :=
  if is_episode_title page_title then ("episode", 1)
  else if oracle.hasText then (oracle.llmType, oracle.llmConfidence)
  else ("unknown", 0)

/-- The signals `fetch_and_validate_page` extracts from a candidate
page and its oracle calls: the campaign numbers found by
`extract_campaigns_from_page` (infobox ones separately), whether the
page header says transcript/episode, the type-oracle inputs, the
`extract_implicit_campaign_signals` result, and the
`validate_final_match` result (`matchFailed` is its exception branch,
which returns 0.5). -/
structure CandidatePage where
  infobox_campaigns : List Nat
  all_campaigns : List Nat
  headerEpisode : Bool
  typeOracle : TypeOracle
  implicitCampaign : Option Nat
  implicitConfidence : ℚ
  matchFailed : Bool
  matchOracle : Bool
  matchConfidence : ℚ

/-- `validate_final_match` (`CR_episode_graph.py` lines 520-622):
`match_confidence if is_match else 0.0`, and `0.5` when the LLM call
raises. -/
def validate_final_match (p : CandidatePage) : ℚ :=
  if p.matchFailed then 1/2
  else if p.matchOracle then p.matchConfidence
  else 0

/-- Membership in the compatible group `{'event', 'historical_event'}`. -/
def inEventGroup (t : String) : Bool := t = "event" || t = "historical_event"

/-- Membership in the compatible group `{'object', 'artifact'}`. -/
def inObjectGroup (t : String) : Bool := t = "object" || t = "artifact"

/-- `validate_page_type` (`CR_episode_graph.py` lines 403-452): start
from the LLM confidence, veto a detected episode, penalize an episode
header by 0.8, boost a direct type match by 0.1 (capped at 1), leave a
compatible synonym alone, scale a genuine mismatch by 0.85, clamp to
[0, 1]. -/
def validate_page_type (p : CandidatePage) (expected_type page_title : String) : ℚ :=
  let d := detect_page_type p.typeOracle page_title
  if d.1 = "episode" then 0
  else
    let f1 := if p.headerEpisode then d.2 - 8/10 else d.2
    let is_compatible : Bool := d.1 = expected_type ||
      (inEventGroup expected_type && inEventGroup d.1) ||
      (inObjectGroup expected_type && inObjectGroup d.1)
    let f2 := if d.1 = expected_type then min 1 (f1 + 1/10) else f1
    let f3 := if ¬ is_compatible ∧ d.1 ≠ "unknown" then f2 * (85/100) else f2
    max 0 (min 1 f3)

/-- The record `validate_campaign` returns (`CR_episode_graph.py`
lines 454-518). -/
structure CampaignValidation where
  confidence : ℚ
  has_explicit_tags : Bool
  is_wrong_campaign : Bool

/-- `validate_campaign` (`CR_episode_graph.py` lines 454-518).  The
Python campaign sets are modelled as duplicate-free lists, so the
`len(...) == 1` tests are length tests here. -/
def validate_campaign (target : Nat) (p : CandidatePage) : CampaignValidation :=
  if p.all_campaigns = [] then ⟨6/10, false, false⟩
  else if p.infobox_campaigns ≠ [] then
    if target ∈ p.infobox_campaigns then
      if p.infobox_campaigns.length = 1 then ⟨1, true, false⟩
      else ⟨9/10, true, false⟩
    else ⟨1/10, true, true⟩
  else if target ∈ p.all_campaigns then
    if p.all_campaigns.length = 1 then ⟨85/100, true, false⟩
    else ⟨7/10, true, false⟩
  else ⟨15/100, true, true⟩

/-- `str.lower()` restricted to ASCII case folding. -/
def pyLower (s : String) : String := String.mk (s.toList.map Char.toLower)

/-- `str.split()` (no separator): split on whitespace runs, dropping
empty pieces; `cur` holds the reversed characters of the word being
built. -/
def splitWordsAux (cur : List Char) : List Char → List String
  | [] => if cur = [] then [] else [String.mk cur.reverse]
  | c :: rest =>
    if c.isWhitespace then
      if cur = [] then splitWordsAux [] rest
      else String.mk cur.reverse :: splitWordsAux [] rest
    else splitWordsAux (c :: cur) rest

/-- `str.split()` on a whole string. -/
def pySplit (s : String) : List String := splitWordsAux [] s.toList

/-- The set of whitespace-separated words of the lower-cased string, as
used by the name checks (`set(node_label.lower().split())`). -/
def wordFinset (s : String) : Finset String := (pySplit (pyLower s)).toFinset

/-- A validation outcome: the confidence the function reports, and
whether the accepting return (line 817) was reached. -/
structure ValidationResult where
  confidence : ℚ
  accepted : Bool
deriving DecidableEq

/-- `fetch_and_validate_page` (`CR_episode_graph.py` lines 653-825) on
a cache miss, as a pure function of the page signals: LAYER 1 hard
rejection on an explicitly wrong infobox campaign, the name-subset
concern, LAYER 2 heuristic scoring (type and campaign confidences
blended 0.5/0.5 on an exact title match and 0.7/0.3 otherwise), soft
rejection below 0.25, LAYER 3 LLM validation when the heuristics are
ambiguous, the name is a concern or tags are missing (the implicit
campaign boost of line 748 only alters the logged reason, never the
returned confidence), LLM rejection below 0.5, the prelim/LLM blend,
and the final 0.4 acceptance threshold. -/
def fetch_and_validate (target : Nat) (p : CandidatePage)
    (page_title node_label node_type : String) : ValidationResult :=
  if p.infobox_campaigns ≠ [] ∧ target ∉ p.infobox_campaigns then ⟨0, false⟩
  else
    let node_words := wordFinset node_label
    let title_words := wordFinset page_title
    let has_name_concern := node_words ⊂ title_words ∧
      node_words.card ≤ (title_words \ node_words).card
    let type_confidence := validate_page_type p node_type page_title
    let cv := validate_campaign target p
    let prelim := if pyLower page_title = pyLower node_label
      then type_confidence * (1/2) + cv.confidence * (1/2)
      else type_confidence * (7/10) + cv.confidence * (3/10)
    if prelim < 1/4 then ⟨0, false⟩
    else
      let needs_llm := prelim < 8/10 ∨ has_name_concern ∨ cv.has_explicit_tags = false
      if needs_llm then
        let match_confidence := validate_final_match p
        if match_confidence < 1/2 then ⟨0, false⟩
        else
          let final := if prelim < 6/10
            then prelim * (3/10) + match_confidence * (7/10)
            else prelim * (1/2) + match_confidence * (1/2)
          if final < 4/10 then ⟨final, false⟩ else ⟨final, true⟩
      else
        if prelim < 4/10 then ⟨prelim, false⟩ else ⟨prelim, true⟩

/-- The honorifics list of `CR_episode_graph.py` (lines 61-65). -/
def honorifics : List String :=
  ["sir", "lady", "lord", "king", "queen", "prince", "princess",
   "duke", "duchess", "baron", "baroness", "count", "countess",
   "master", "mistress", "captain", "general", "admiral"]

/-- `' '.join(words)`. -/
def joinSpace : List String → String
  | [] => ""
  | [w] => w
  | w :: rest => w ++ " " ++ joinSpace rest

/-- `strip_honorifics` (`CR_episode_graph.py` lines 827-832): drop the
first word when it is a known honorific. -/
def strip_honorifics (name : String) : String :=
  match pySplit name with
  | [] => name
  | w :: rest => if pyLower w ∈ honorifics then joinSpace rest else name

/-- `str.strip()`: whitespace removed at both ends. -/
def pyStripStr (s : String) : String :=
  String.mk ((s.toList.dropWhile Char.isWhitespace).reverse.dropWhile
    Char.isWhitespace).reverse

/-- `re.sub(r'\s*\([^)]*\)\s*$', '', label)`: remove one trailing
parenthetical group.  The leftmost match starts at the leftmost `(`
that reaches the final `)` without crossing another `)`, together with
the whitespace before it. -/
def parenSub (label : String) : String :=
  match label.toList.reverse.dropWhile Char.isWhitespace with
  | ')' :: rest =>
    let seg := rest.takeWhile (fun c => c ≠ ')')
    if '(' ∈ seg then
      let pre := rest.drop seg.length
      let before := seg.reverse.takeWhile (fun c => c ≠ '(')
      String.mk (pre.reverse ++
        (before.reverse.dropWhile Char.isWhitespace).reverse)
    else label
  | _ => label

/-- `clean_label = re.sub(r'\s*\([^)]*\)\s*$', '', node_label).strip()`
(`CR_episode_graph.py` line 848). -/
def clean_label_of (label : String) : String := pyStripStr (parenSub label)

/-- `score_search_result` (`CR_episode_graph.py` lines 624-651): 100
for an exact case-insensitive title match, else 50 times the fraction
of the query's words found in the title plus 20 for full coverage;
minus 50 for an episode-looking title; minus 20 for tiny pages, plus
10 for large ones.  Returns the score; the accompanying
`should_validate` flag is literally `score > 20` and is written as that
comparison at the call site.  The `node_type` parameter of the source
is unused there and dropped here. -/
def score_search_result (node_label title : String) (size : Int) : ℚ :=
  let base : ℚ :=
    if pyLower title = pyLower node_label then 100
    else
      let node_words := wordFinset node_label
      let title_words := wordFinset title
      let overlap := (node_words ∩ title_words).card
      let coverage : ℚ :=
        if node_words = ∅ then 0 else (overlap : ℚ) / (node_words.card : ℚ)
      let s := coverage * 50
      if overlap = node_words.card then s + 20 else s
  let s1 := if is_episode_title title then base - 50 else base
  if size < 100 then s1 - 20 else if size > 1000 then s1 + 10 else s1

/-- The environment `fetch_wiki_image` runs against for one node: the
`manual_overrides` table, the wiki search endpoint (per query, a list
of `(title, size)` results), and the confidence component of
`fetch_and_validate_page` for a candidate title (node label and type
are fixed for the call). -/
structure ResolveEnv where
  overrides : List (String × String)
  search : String → List (String × Int)
  validate : String → ℚ

/-- `best_confidence`: 0 before any candidate is accepted. -/
def bestConf : Option (String × ℚ) → ℚ
  | none => 0
  | some b => b.2

/-- The inner result loop of `fetch_wiki_image` (`CR_episode_graph.py`
lines 894-923): skip candidates with a low search score, validate the
rest, keep the best, and break out on confidence above 0.85. -/
def scanResults (validate : String → ℚ) (query : String) :
    List (String × Int) → Option (String × ℚ) → Option (String × ℚ)
  | [], best => best
  | r :: rest, best =>
    if 20 < score_search_result query r.1 r.2 then
      let c := validate r.1
      if bestConf best < c then
        if 85/100 < c then some (r.1, c)
        else scanResults validate query rest (some (r.1, c))
      else scanResults validate query rest best
    else scanResults validate query rest best

/-- The outer query loop (`CR_episode_graph.py` lines 878-929): try
each query variant in turn, stopping once the best confidence exceeds
0.7.  (A candidate that broke the inner loop at > 0.85 also stops the
outer loop here.) -/
def scanQueries (validate : String → ℚ) (search : String → List (String × Int)) :
    List String → Option (String × ℚ) → Option (String × ℚ)
  | [], best => best
  | q :: qs, best =>
    let cur := scanResults validate q ((search q).take 5) best
    if 7/10 < bestConf cur then cur else scanQueries validate search qs cur

/-- The query-variant list (`CR_episode_graph.py` lines 845-857): the
label itself, preceded by the suffix-stripped variant when different,
followed by the honorific-stripped variant when different. -/
def search_queries_of (label : String) : List String :=
  let qs1 := if clean_label_of label ≠ label
    then [clean_label_of label, label] else [label]
  if strip_honorifics label ≠ label then qs1 ++ [strip_honorifics label] else qs1

/-- The final acceptance gate (`CR_episode_graph.py` lines 931-941):
a best result is returned only with confidence at least 0.4. -/
def finishSearch (b : Option (String × ℚ)) : Option (String × ℚ) :=
  if 4/10 ≤ bestConf b then b else none

set_option linter.unusedVariables false in
/-- `fetch_wiki_image` (`CR_episode_graph.py` lines 834-941) on a cache
miss: consult the manual-override table first and accept the override
target at the relaxed threshold 0.35; otherwise (or when the override
validates at ≤ 0.35) run the scored search over all query variants and
accept the best candidate at the standard threshold 0.4.  The returned
pair is `(best_title, best_confidence)`.  `node_type` flows only into
`fetch_and_validate_page`, which `env.validate` abstracts, so it is
unused here just as in the search loop of the source. -/
def fetch_wiki_image (env : ResolveEnv) (node_label node_type : String) :
    Option (String × ℚ) :=
  match slookup env.overrides node_label with
  | some override_title =>
    if 35/100 < env.validate override_title then
      some (override_title, env.validate override_title)
    else
      finishSearch (scanQueries env.validate env.search
        (search_queries_of node_label) none)
  | none =>
    finishSearch (scanQueries env.validate env.search
      (search_queries_of node_label) none)

/-- The search results of the spec's Shadia scenario: every query
returns the exact page "Shadia" with size 5000. -/
def shadiaSearch : String → List (String × Int) := fun _ => [("Shadia", 5000)]

/-- A validator giving "Shadia" confidence 0.38 — above the relaxed
0.35 override threshold, below the standard 0.4 one. -/
def shadiaValidate : String → ℚ := fun t => if t = "Shadia" then 38/100 else 0

/-- A validator giving "Shadia" confidence 0.5, the number the spec's
scenario names. -/
def shadiaValidateHalf : String → ℚ := fun t => if t = "Shadia" then 1/2 else 0

/-- `fetch_wiki_image` behind its `image_cache` (`CR_episode_graph.py`
lines 836-837 for the hit, lines 872, 933 and 940 for the stores): a
run-lifetime dictionary keyed by the node label, holding every
outcome — success (`some`) and failure (`none`) alike.  The number of
network requests the uncached body performs is the parameter `nreq`; a
cache hit performs none.  Returns (result, new cache, requests). -/
def fetch_wiki_image_cached (env : ResolveEnv) (nreq : Nat)
    (cache : List (String × Option (String × ℚ))) (node_label node_type : String) :
    Option (String × ℚ) × List (String × Option (String × ℚ)) × Nat :=
  match slookup cache node_label with
  | some r => (r, cache, 0)
  | none =>
    (fetch_wiki_image env node_label node_type,
     cache ++ [(node_label, fetch_wiki_image env node_label node_type)], nreq)

/-- `fetch_and_validate_page` behind its `validation_cache`
(`CR_episode_graph.py` lines 660-662 for the hit; lines 685, 727, 760,
785, 818 and 824 store the result on every return path, rejections and
errors included), keyed by `f"{page_title}|{node_type}"`.  `body` is
the uncached computation paired with its network-request count; a
cache hit performs no request. -/
def fetch_and_validate_cached (body : String → String → ValidationResult × Nat)
    (cache : List (String × ValidationResult)) (page_title node_type : String) :
    ValidationResult × List (String × ValidationResult) × Nat :=
  match slookup cache (page_title ++ "|" ++ node_type) with
  | some r => (r, cache, 0)
  | none =>
    ((body page_title node_type).1,
     cache ++ [(page_title ++ "|" ++ node_type, (body page_title node_type).1)],
     (body page_title node_type).2)

/-- The mutable state of the Phase-1 worklist loop: the pending queue,
the set of processed canonical ids (in insertion order) and the
processed count. -/
structure CrawlState where
  queue : List String
  processed : List String
  count : Nat
deriving DecidableEq

/-- The enqueueing inner loop (`CR_character_graph.py` lines 804-811):
each discovered raw target is normalized and appended to the live
queue when its canonical id is not processed and the normalized title
is not already queued.  (The extra `'#' in target` strip of line 806
is a no-op: `normalize_page_title` has already cut the title at the
first `#`.) -/
def enqueueTargets (unquote canon : String → String) (processed : List String) :
    List String → List String → List String
  | queue, [] => queue
  | queue, t :: rest =>
    if canon (normalize_page_title unquote t) ∉ processed ∧
        normalize_page_title unquote t ∉ queue then
      enqueueTargets unquote canon processed
        (queue ++ [normalize_page_title unquote t]) rest
    else
      enqueueTargets unquote canon processed queue rest

/-- The Phase-1 worklist loop (`CR_character_graph.py` lines 778-812;
`char_graph.py` lines 667-714 is the same loop with budget 50 instead
of 200 — the budget is the parameter `limit`).  `canon` models
`get_canonical_name` over the run's alias table, fixed here because
the scenario under proof involves no redirects; `discover` models the
relationship targets `process_page` returns.  While the queue is
nonempty and the budget unspent: pop the front, skip an
already-processed canonical id without spending budget, otherwise
spend one unit, record the canonical id (when truthy) and enqueue its
unseen targets. -/
def crawlLoop (unquote canon : String → String) (discover : String → List String)
    (limit : Nat) (s : CrawlState) : CrawlState :=
  match hq : s.queue with
  | [] => s
  | page_title :: qrest =>
    if hlt : s.count < limit then
      if canon (normalize_page_title unquote page_title) ∈ s.processed then
        crawlLoop unquote canon discover limit ⟨qrest, s.processed, s.count⟩
      else
        if canon (normalize_page_title unquote page_title) ≠ "" then
          crawlLoop unquote canon discover limit
            ⟨enqueueTargets unquote canon
               (s.processed ++ [canon (normalize_page_title unquote page_title)])
               qrest (discover (normalize_page_title unquote page_title)),
             s.processed ++ [canon (normalize_page_title unquote page_title)],
             s.count + 1⟩
        else
          crawlLoop unquote canon discover limit ⟨qrest, s.processed, s.count + 1⟩
    else s
termination_by (limit - s.count, s.queue.length)
decreasing_by
  · apply Prod.Lex.right
    rw [hq]
    simp
  · apply Prod.Lex.left
    omega
  · apply Prod.Lex.left
    omega

/-- The five seed titles of the spec's budget-exhaustion scenario. -/
def scenarioSeeds : List String := ["S1", "S2", "S3", "S4", "S5"]

/-- The scenario's discovery: each of the five seeds discovers ten
fresh unique targets; discovered targets discover nothing. -/
def scenarioDiscover (t : String) : List String :=
  if t ∈ scenarioSeeds then (List.range 10).map (fun i => t ++ "T" ++ toString i)
  else []

/-- All fifty targets the scenario's seeds can discover. -/
def scenarioTargets : List String := (scenarioSeeds.map scenarioDiscover).flatten

/-- The canonicalisation of the scenario: the run's alias table is
empty (no redirects occur), so every title is its own canonical id. -/
def scenarioCanon : String → String := get_canonical_name id []

/-!  GML conversion (`src/json_to_gml.py`).  The characters that the
token scanner of a GML reader cares about are written through
`Char.ofNat` so that the embedding stays plain text. -/

/-- The double-quote character `"`. -/
def quoteChar : Char := Char.ofNat 34

/-- The apostrophe character. -/
def apostropheChar : Char := Char.ofNat 39

/-- The backslash character. -/
def backslashChar : Char := Char.ofNat 92

/-- The opening-brace character. -/
def lbraceChar : Char := Char.ofNat 123

/-- The closing-brace character. -/
def rbraceChar : Char := Char.ofNat 125

/-- The DEL character, code point 127: the one ASCII control character
whose code is not below 32. -/
def delChar : Char := Char.ofNat 127

/-- `to_ascii_safe` (`json_to_gml.py` lines 23-36): `remove_accents`
followed by `s.encode('ascii', 'ignore').decode('ascii')`, which drops
every character above code point 127.  `remove_accents` (lines 13-20)
is Unicode NFD decomposition with combining marks removed; the Unicode
tables are outside this embedding, so it is the uninterpreted
parameter `nfd` — it is the identity on ASCII-only strings. -/
def to_ascii_safe (nfd : String → String) (s : String) : List Char :=
  (nfd s).toList.filter (fun c => c.toNat ≤ 127)

/-- `s.replace(a, b)` for single characters. -/
def substChar (a b : Char) (l : List Char) : List Char :=
  l.map (fun c => if c = a then b else c)

/-- `re.sub(r'\s+', ' ', s)` on the post-filter string: by that point
the only whitespace character left is the space (every other `\s`
character has been replaced by a space or removed by the `ord >= 32`
filter), so runs of spaces collapse to one. -/
def collapseSpaces : List Char → List Char
  | [] => []
  | [c] => [c]
  | c :: d :: rest =>
    if c = ' ' ∧ d = ' ' then collapseSpaces (d :: rest)
    else c :: collapseSpaces (d :: rest)

/-- `str.strip()` on a character list. -/
def pyStripChars (l : List Char) : List Char :=
  ((l.dropWhile Char.isWhitespace).reverse.dropWhile Char.isWhitespace).reverse

/-- `escape_gml_string` (`json_to_gml.py` lines 39-73): ASCII-reduce,
double backslashes, replace double quotes by apostrophes, newlines,
carriage returns and tabs by spaces, `;` and `|` by spaces, brackets
and braces by parentheses, drop the characters with code below 32,
collapse whitespace runs and strip. -/
def escape_gml_string (nfd : String → String) (s : String) : List Char :=
  let s0 := to_ascii_safe nfd s
  let s1 := s0.flatMap (fun c =>
    if c = backslashChar then [backslashChar, backslashChar] else [c])
  let s2 := substChar quoteChar apostropheChar s1
  let s3 := substChar '\n' ' ' s2
  let s4 := substChar '\r' ' ' s3
  let s5 := substChar '\t' ' ' s4
  let s6 := substChar ';' ' ' s5
  let s7 := substChar '|' ' ' s6
  let s8 := substChar '[' '(' s7
  let s9 := substChar ']' ')' s8
  let s10 := substChar lbraceChar '(' s9
  let s11 := substChar rbraceChar ')' s10
  let s12 := s11.filter (fun c => 32 ≤ c.toNat)
  pyStripChars (collapseSpaces s12)

/-- `find?` with a membership predicate returns the listed element all
of whose predecessors fail the predicate. -/
theorem find_first_mem {P m : List String} {k : String}
    (hk : k ∈ P) (hmem : m.contains k = true)
    (hbefore : ∀ k' ∈ P, P.indexOf k' < P.indexOf k → m.contains k' = false) :
    P.find? (fun rel => m.contains rel) = some k := by
  induction P with
  | nil => cases hk
  | cons a P ih =>
    by_cases ha : a = k
    · subst ha
      exact List.find?_cons_of_pos _ hmem
    · have hkP : k ∈ P := by
        cases hk with
        | head => exact absurd rfl ha
        | tail _ h => exact h
      have hidx : (a :: P).indexOf a < (a :: P).indexOf k := by
        rw [List.indexOf_cons_self, List.indexOf_cons_ne _ ha]
        exact Nat.succ_pos _
      have hac : m.contains a = false := hbefore a (List.mem_cons_self a P) hidx
      rw [List.find?_cons_of_neg _ (by simp only [hac]; exact Bool.false_ne_true)]
      apply ih hkP
      intro k' hk' hlt
      by_cases hk'a : k' = a
      · subst hk'a; exact hac
      · apply hbefore k' (List.mem_cons_of_mem a hk')
        rw [List.indexOf_cons_ne _ (fun h => hk'a h.symm), List.indexOf_cons_ne _ ha]
        exact Nat.succ_lt_succ hlt

/-- C1: when every raw label of a pair maps to one of two kinds `k1`,
`k2`, with `k1` earlier in the fixed precedence list, and `k1` actually
occurs, the consolidated edge kind is `k1`: the first precedence entry
present in the mapped-kind set wins, for every pairwise combination of
the precedence list (the witness instantiates the spec's example
`{enemy, close_friend} ↦ Enemy`). -/
theorem consolidated_kind_precedence (ts : List String) (k1 k2 : String)
    (hk1 : k1 ∈ PRECEDENCE) (_hk2 : k2 ∈ PRECEDENCE)
    (hlt : PRECEDENCE.indexOf k1 < PRECEDENCE.indexOf k2)
    (hall : ∀ t ∈ ts, mapKind t = k1 ∨ mapKind t = k2)
    (hex : ∃ t ∈ ts, mapKind t = k1) :
    get_strongest_relationship ts = k1 := by
  have hcontains : (ts.map mapKind).contains k1 = true := by
    obtain ⟨t, ht, hmap⟩ := hex
    rw [List.contains_eq_any_beq]
    simp only [List.any_eq_true, beq_iff_eq]
    exact ⟨k1, List.mem_map.mpr ⟨t, ht, hmap⟩, rfl⟩
  have hbefore : ∀ k' ∈ PRECEDENCE,
      PRECEDENCE.indexOf k' < PRECEDENCE.indexOf k1 →
      (ts.map mapKind).contains k' = false := by
    intro k' _ hlt'
    by_contra hc
    have hc' : (ts.map mapKind).contains k' = true := by
      cases h : (ts.map mapKind).contains k' with
      | false => exact absurd h hc
      | true => rfl
    have : k' ∈ ts.map mapKind := by
      rw [List.contains_eq_any_beq] at hc'
      simp only [List.any_eq_true, beq_iff_eq] at hc'
      obtain ⟨x, hx, hxe⟩ := hc'
      rw [← hxe] at hx; exact hx
    obtain ⟨t, ht, hmap⟩ := List.mem_map.mp this
    cases hall t ht with
    | inl h =>
      rw [hmap] at h; subst h
      exact Nat.lt_irrefl _ hlt'
    | inr h =>
      rw [hmap] at h; subst h
      exact Nat.lt_irrefl _ (Nat.lt_trans hlt' hlt)
  show (match PRECEDENCE.find? (fun rel => (ts.map mapKind).contains rel) with
    | some rel => rel
    | none => "Associated With") = k1
  rw [find_first_mem hk1 hcontains hbefore]

/-- Witness for C1: the spec's concrete example.  Raw labels
`["enemy", "close_friend"]` map to kinds `{Enemy, Ally}`, and the
consolidated kind is `Enemy`. -/
theorem consolidated_kind_precedence_witness :
    get_strongest_relationship ["enemy", "close_friend"] = "Enemy" :=
  consolidated_kind_precedence ["enemy", "close_friend"] "Enemy" "Ally"
    (by decide) (by decide) (by decide) (by decide)
    ⟨"enemy", by constructor <;> decide⟩

/-- `find?` respects pointwise-equal predicates. -/
theorem find_congr {p q : String → Bool} (l : List String)
    (h : ∀ a ∈ l, p a = q a) : l.find? p = l.find? q := by
  induction l with
  | nil => rfl
  | cons a l ih =>
    have ha := h a (List.mem_cons_self a l)
    cases hpa : p a with
    | true =>
      have hqa : q a = true := by rw [← ha]; exact hpa
      rw [List.find?_cons_of_pos _ hpa, List.find?_cons_of_pos _ hqa]
    | false =>
      have hqa : q a = false := by rw [← ha]; exact hpa
      rw [List.find?_cons_of_neg _ (by simp only [hpa]; exact Bool.false_ne_true),
          List.find?_cons_of_neg _ (by simp only [hqa]; exact Bool.false_ne_true)]
      exact ih (fun a ha' => h a (List.mem_cons_of_mem _ ha'))

/-- `contains` decides membership for strings. -/
theorem contains_true_iff (l : List String) (a : String) :
    l.contains a = true ↔ a ∈ l := by
  rw [List.contains_eq_any_beq]
  simp only [List.any_eq_true, beq_iff_eq]
  constructor
  · rintro ⟨x, hx, he⟩
    rw [he]; exact hx
  · intro h; exact ⟨a, h, rfl⟩

/-- The strongest kind only depends on which kinds appear among the
mapped labels, not on their order or multiplicity. -/
theorem strongest_congr {ts ts' : List String}
    (h : ∀ x, x ∈ ts.map mapKind ↔ x ∈ ts'.map mapKind) :
    get_strongest_relationship ts = get_strongest_relationship ts' := by
  show (match PRECEDENCE.find? (fun rel => (ts.map mapKind).contains rel) with
        | some rel => rel | none => "Associated With") =
       (match PRECEDENCE.find? (fun rel => (ts'.map mapKind).contains rel) with
        | some rel => rel | none => "Associated With")
  have hfind : PRECEDENCE.find? (fun rel => (ts.map mapKind).contains rel)
      = PRECEDENCE.find? (fun rel => (ts'.map mapKind).contains rel) := by
    apply find_congr
    intro a _
    by_cases hm : a ∈ ts'.map mapKind
    · rw [(contains_true_iff _ _).mpr hm, (contains_true_iff _ _).mpr ((h a).mpr hm)]
    · have hm' : ¬ a ∈ ts.map mapKind := fun hx => hm ((h a).mp hx)
      cases hx : (ts.map mapKind).contains a with
      | true => exact absurd ((contains_true_iff _ _).mp hx) hm'
      | false =>
        cases hy : (ts'.map mapKind).contains a with
        | true => exact absurd ((contains_true_iff _ _).mp hy) hm
        | false => rfl
  rw [hfind]

/-- Unfolding `extendEntry` at a matching head. -/
theorem extendEntry_cons_self (k0 : String × String) (v0 : List String)
    (rest : List ((String × String) × List String)) (v : List String) :
    extendEntry ((k0, v0) :: rest) k0 v = (k0, v0 ++ v) :: rest := by
  simp [extendEntry]

/-- Unfolding `extendEntry` at a non-matching head. -/
theorem extendEntry_cons_ne {k0 k : String × String} (h : ¬ k0 = k) (v0 : List String)
    (rest : List ((String × String) × List String)) (v : List String) :
    extendEntry ((k0, v0) :: rest) k v = (k0, v0) :: extendEntry rest k v := by
  simp [extendEntry, h]

/-- Unfolding `alookup` at a matching head. -/
theorem alookup_cons_self (k0 : String × String) (v0 : List String)
    (rest : List ((String × String) × List String)) :
    alookup ((k0, v0) :: rest) k0 = some v0 := by
  simp [alookup]

/-- Unfolding `alookup` at a non-matching head. -/
theorem alookup_cons_ne {k0 k : String × String} (h : ¬ k0 = k) (v0 : List String)
    (rest : List ((String × String) × List String)) :
    alookup ((k0, v0) :: rest) k = alookup rest k := by
  simp [alookup, h]

/-- Looking up the extended key returns the old entry extended. -/
theorem alookup_extendEntry_self (m : List ((String × String) × List String))
    (k : String × String) (v : List String) :
    alookup (extendEntry m k v) k = some ((alookup m k).getD [] ++ v) := by
  induction m with
  | nil => simp [extendEntry, alookup]
  | cons kv rest ih =>
    obtain ⟨k', v'⟩ := kv
    by_cases hk : k' = k
    · subst hk
      rw [extendEntry_cons_self, alookup_cons_self, alookup_cons_self]
      rfl
    · rw [extendEntry_cons_ne hk, alookup_cons_ne hk, alookup_cons_ne hk, ih]

/-- Looking up any other key is unchanged by an extension. -/
theorem alookup_extendEntry_ne (m : List ((String × String) × List String))
    {k k' : String × String} (v : List String) (h : k' ≠ k) :
    alookup (extendEntry m k v) k' = alookup m k' := by
  induction m with
  | nil =>
    show alookup [(k, v)] k' = alookup [] k'
    rw [alookup_cons_ne (fun e => h e.symm)]
  | cons kv rest ih =>
    obtain ⟨k0, v0⟩ := kv
    by_cases hk : k0 = k
    · subst hk
      rw [extendEntry_cons_self]
      by_cases hk' : k0 = k'
      · exact absurd hk'.symm h
      · rw [alookup_cons_ne hk', alookup_cons_ne hk']
    · rw [extendEntry_cons_ne hk]
      by_cases hk' : k0 = k'
      · subst hk'
        rw [alookup_cons_self, alookup_cons_self]
      · rw [alookup_cons_ne hk', alookup_cons_ne hk', ih]

/-- The key set after an extension is the old key set plus the key. -/
theorem mem_keys_extendEntry {m : List ((String × String) × List String)}
    {k x : String × String} {v : List String} :
    x ∈ (extendEntry m k v).map Prod.fst ↔ x ∈ m.map Prod.fst ∨ x = k := by
  induction m with
  | nil => simp [extendEntry]
  | cons kv rest ih =>
    obtain ⟨k0, v0⟩ := kv
    by_cases hk : k0 = k
    · subst hk
      rw [extendEntry_cons_self]
      simp only [List.map_cons, List.mem_cons]
      constructor
      · intro h; exact Or.inl h
      · rintro (h | h)
        · exact h
        · subst h; exact Or.inl rfl
    · rw [extendEntry_cons_ne hk]
      simp only [List.map_cons, List.mem_cons, ih]
      tauto

/-- Extension preserves key uniqueness. -/
theorem nodup_keys_extendEntry {m : List ((String × String) × List String)}
    {k : String × String} {v : List String} (h : (m.map Prod.fst).Nodup) :
    ((extendEntry m k v).map Prod.fst).Nodup := by
  induction m with
  | nil => simp [extendEntry]
  | cons kv rest ih =>
    obtain ⟨k0, v0⟩ := kv
    simp only [List.map_cons, List.nodup_cons] at h
    by_cases hk : k0 = k
    · subst hk
      rw [extendEntry_cons_self]
      simp only [List.map_cons, List.nodup_cons]
      exact ⟨h.1, h.2⟩
    · rw [extendEntry_cons_ne hk]
      simp only [List.map_cons, List.nodup_cons]
      refine ⟨?_, ih h.2⟩
      intro hx
      rcases mem_keys_extendEntry.mp hx with h' | h'
      · exact h.1 h'
      · exact hk h'

/-- The `final_rels` dictionary built by the Phase-3 fold has pairwise
distinct ordered-pair keys. -/
theorem nodup_keys_aggregate (pairs : List ((String × String) × List String)) :
    ((aggregate pairs).map Prod.fst).Nodup := by
  have aux : ∀ (ps : List ((String × String) × List String))
      (m : List ((String × String) × List String)), (m.map Prod.fst).Nodup →
      ((ps.foldl (fun m kv => extendEntry m kv.1 kv.2) m).map Prod.fst).Nodup := by
    intro ps
    induction ps with
    | nil => intro m h; exact h
    | cons kv rest ih => intro m h; exact ih _ (nodup_keys_extendEntry h)
  exact aux pairs [] (by simp)

/-- The keys of the consolidated edge list form a sublist of the keys
of the aggregated dictionary. -/
theorem keys_consolidated_sublist (entities : List String)
    (A : List ((String × String) × List String)) :
    ((A.filterMap (fun kv =>
        if kv.1.2 ∈ entities then some (kv.1, get_strongest_relationship kv.2)
        else none)).map Prod.fst).Sublist (A.map Prod.fst) := by
  induction A with
  | nil => simp
  | cons kv rest ih =>
    by_cases hk : kv.1.2 ∈ entities
    · simp only [List.filterMap_cons, if_pos hk, List.map_cons]
      exact ih.cons₂ _
    · simp only [List.filterMap_cons, if_neg hk, List.map_cons]
      exact ih.cons _

/-- Membership of a value in an entry survives any extension. -/
theorem mem_types_extend_preserve {m : List ((String × String) × List String)}
    {k p : String × String} {v : List String} {x : String}
    (h : x ∈ (alookup m p).getD []) :
    x ∈ (alookup (extendEntry m k v) p).getD [] := by
  by_cases hp : p = k
  · subst hp
    rw [alookup_extendEntry_self]
    exact List.mem_append_left _ h
  · rw [alookup_extendEntry_ne _ _ hp]; exact h

/-- Membership of a value in an entry survives the rest of the fold. -/
theorem mem_types_foldl_preserve (pairs : List ((String × String) × List String)) :
    ∀ (m : List ((String × String) × List String)) (p : String × String) (x : String),
      x ∈ (alookup m p).getD [] →
      x ∈ (alookup (pairs.foldl (fun m kv => extendEntry m kv.1 kv.2) m) p).getD [] := by
  induction pairs with
  | nil => intro m p x h; exact h
  | cons kv rest ih => intro m p x h; exact ih _ _ _ (mem_types_extend_preserve h)

/-- Every raw type contributed for a pair ends up in the pair's entry
of the aggregated dictionary. -/
theorem mem_types_aggregate_aux (p : String × String) (v : List String) (x : String)
    (hx : x ∈ v) :
    ∀ (pairs : List ((String × String) × List String)), (p, v) ∈ pairs →
      ∀ m, x ∈ (alookup (pairs.foldl (fun m kv => extendEntry m kv.1 kv.2) m) p).getD [] := by
  intro pairs
  induction pairs with
  | nil => intro h; cases h
  | cons kv rest ih =>
    intro hin m
    rcases List.mem_cons.mp hin with heq | hmem
    · simp only [List.foldl_cons]
      apply mem_types_foldl_preserve
      show x ∈ (alookup (extendEntry m kv.1 kv.2) p).getD []
      rw [← heq]
      show x ∈ (alookup (extendEntry m p v) p).getD []
      rw [alookup_extendEntry_self]
      exact List.mem_append_right _ hx
    · simp only [List.foldl_cons]
      exact ih hmem _

/-- Every contributed pair key appears among the aggregated keys. -/
theorem mem_keys_aggregate_aux (p : String × String) (v : List String) :
    ∀ (pairs : List ((String × String) × List String)), (p, v) ∈ pairs →
      ∀ m, p ∈ ((pairs.foldl (fun m kv => extendEntry m kv.1 kv.2) m)).map Prod.fst := by
  have pres : ∀ (ps : List ((String × String) × List String)) m,
      p ∈ m.map Prod.fst →
      p ∈ ((ps.foldl (fun m kv => extendEntry m kv.1 kv.2) m)).map Prod.fst := by
    intro ps
    induction ps with
    | nil => intro m h; exact h
    | cons kv rest ih =>
      intro m h
      exact ih _ (mem_keys_extendEntry.mpr (Or.inl h))
  intro pairs
  induction pairs with
  | nil => intro h; cases h
  | cons kv rest ih =>
    intro hin m
    rcases List.mem_cons.mp hin with heq | hmem
    · simp only [List.foldl_cons]
      apply pres
      rw [← heq]
      exact mem_keys_extendEntry.mpr (Or.inr rfl)
    · simp only [List.foldl_cons]
      exact ih hmem _

/-- Every aggregated key comes from a contributed pair. -/
theorem keys_aggregate_subset (pairs : List ((String × String) × List String))
    (x : String × String) (hx : x ∈ (aggregate pairs).map Prod.fst) :
    x ∈ pairs.map Prod.fst := by
  have aux : ∀ (ps : List ((String × String) × List String)) m,
      x ∈ ((ps.foldl (fun m kv => extendEntry m kv.1 kv.2) m)).map Prod.fst →
      x ∈ m.map Prod.fst ∨ x ∈ ps.map Prod.fst := by
    intro ps
    induction ps with
    | nil => intro m h; exact Or.inl h
    | cons kv rest ih =>
      intro m h
      rcases ih _ h with h' | h'
      · rcases mem_keys_extendEntry.mp h' with h'' | h''
        · exact Or.inl h''
        · exact Or.inr (by rw [List.map_cons, h'']; exact List.mem_cons_self _ _)
      · exact Or.inr (List.mem_cons_of_mem _ h')
  rcases aux pairs [] hx with h | h
  · cases h
  · exact h

/-- Extending an already-represented pair whose types are already all
present does not change the consolidated edge list. -/
theorem consolidated_extendEntry_eq (entities : List String) (p0 : String × String)
    (ts0 : List String) :
    ∀ (A : List ((String × String) × List String)),
      p0 ∈ A.map Prod.fst →
      (∀ x ∈ ts0, x ∈ (alookup A p0).getD []) →
      (extendEntry A p0 ts0).filterMap (fun kv =>
        if kv.1.2 ∈ entities then some (kv.1, get_strongest_relationship kv.2)
        else none) =
      A.filterMap (fun kv =>
        if kv.1.2 ∈ entities then some (kv.1, get_strongest_relationship kv.2)
        else none) := by
  intro A
  induction A with
  | nil => intro h; cases (by simp at h : False)
  | cons kv rest ih =>
    intro hmem hsub
    obtain ⟨k0, v0⟩ := kv
    by_cases hk : k0 = p0
    · subst hk
      rw [extendEntry_cons_self]
      have hl : alookup ((k0, v0) :: rest) k0 = some v0 := alookup_cons_self _ _ _
      rw [hl] at hsub
      simp only [Option.getD_some] at hsub
      have hst : get_strongest_relationship (v0 ++ ts0) = get_strongest_relationship v0 := by
        apply strongest_congr
        intro y
        simp only [List.map_append, List.mem_append]
        constructor
        · rintro (h | h)
          · exact h
          · obtain ⟨t, ht, hmt⟩ := List.mem_map.mp h
            exact List.mem_map.mpr ⟨t, hsub t ht, hmt⟩
        · intro h; exact Or.inl h
      simp only [List.filterMap_cons]
      rw [hst]
    · rw [extendEntry_cons_ne hk]
      have hmem' : p0 ∈ rest.map Prod.fst := by
        simp only [List.map_cons, List.mem_cons] at hmem
        rcases hmem with h | h
        · exact absurd h.symm hk
        · exact h
      have hsub' : ∀ x ∈ ts0, x ∈ (alookup rest p0).getD [] := by
        intro x hx
        have h := hsub x hx
        rw [alookup_cons_ne hk] at h
        exact h
      simp only [List.filterMap_cons]
      rw [ih hmem' hsub']

/-- C2: edge uniqueness and idempotent ingestion.  For every alias map,
entity store and buffered multiset of raw relationships, (1) the
consolidated edge list holds at most one edge per ordered pair of
canonical ids — its key list has no duplicates — and (2) re-ingesting
any raw relationship already present leaves the consolidated edge list
unchanged, edge kinds included (set-union semantics on the contributing
labels). -/
theorem edge_uniqueness_idempotent (u : String → String) (am : List (String × String))
    (ents : List String) (raws : List (String × RawRel)) :
    ((build_edges u am ents raws).map Prod.fst).Nodup ∧
    (∀ sr ∈ raws, build_edges u am ents (raws ++ [sr]) = build_edges u am ents raws) := by
  constructor
  · exact ((keys_consolidated_sublist ents
      (aggregate (phase3Pairs u am ents raws))).nodup
      (nodup_keys_aggregate (phase3Pairs u am ents raws)))
  · intro sr hin
    show consolidatedEdges ents (phase3Pairs u am ents (raws ++ [sr]))
      = consolidatedEdges ents (phase3Pairs u am ents raws)
    have hsplit : phase3Pairs u am ents (raws ++ [sr]) =
        phase3Pairs u am ents raws ++ phase3Pairs u am ents [sr] := by
      unfold phase3Pairs
      rw [List.filterMap_append]
    rw [hsplit]
    by_cases hc : sr.1 ∈ ents ∧
        get_canonical_name u am (normalize_page_title u sr.2.target) ∈ ents
    · have hone : phase3Pairs u am ents [sr] =
          [((sr.1, get_canonical_name u am (normalize_page_title u sr.2.target)),
            sr.2.types)] := by
        unfold phase3Pairs
        simp only [List.filterMap_cons, List.filterMap_nil, if_pos hc]
      rw [hone]
      have hkv : ((sr.1, get_canonical_name u am (normalize_page_title u sr.2.target)),
          sr.2.types) ∈ phase3Pairs u am ents raws := by
        unfold phase3Pairs
        apply List.mem_filterMap.mpr
        exact ⟨sr, hin, by rw [if_pos hc]⟩
      show consolidatedEdges ents (phase3Pairs u am ents raws ++ [_]) = _
      unfold consolidatedEdges
      have hagg : aggregate (phase3Pairs u am ents raws ++
          [((sr.1, get_canonical_name u am (normalize_page_title u sr.2.target)),
            sr.2.types)]) =
          extendEntry (aggregate (phase3Pairs u am ents raws))
            (sr.1, get_canonical_name u am (normalize_page_title u sr.2.target))
            sr.2.types := by
        unfold aggregate
        rw [List.foldl_append]
        rfl
      rw [hagg]
      apply consolidated_extendEntry_eq
      · exact mem_keys_aggregate_aux _ _ _ hkv []
      · intro x hx
        exact mem_types_aggregate_aux _ _ x hx _ hkv []
    · have hnone : phase3Pairs u am ents [sr] = [] := by
        unfold phase3Pairs
        simp only [List.filterMap_cons, List.filterMap_nil, if_neg hc]
      rw [hnone, List.append_nil]

/-- Witness for C2 at a concrete input: a single raw relationship
`A -[enemy]-> B`, re-ingested once. -/
theorem edge_uniqueness_idempotent_witness :
    ((build_edges id [] ["A", "B"] [("A", RawRel.mk "B" ["enemy"])]).map Prod.fst).Nodup ∧
    build_edges id [] ["A", "B"]
        ([("A", RawRel.mk "B" ["enemy"])] ++ [("A", RawRel.mk "B" ["enemy"])]) =
      build_edges id [] ["A", "B"] [("A", RawRel.mk "B" ["enemy"])] :=
  ⟨(edge_uniqueness_idempotent id [] ["A", "B"] [("A", RawRel.mk "B" ["enemy"])]).1,
   (edge_uniqueness_idempotent id [] ["A", "B"] [("A", RawRel.mk "B" ["enemy"])]).2
     ("A", RawRel.mk "B" ["enemy"]) (List.mem_singleton.mpr rfl)⟩

/-- C3: dangling-edge exclusion.  Every edge the consolidation phase
materializes has both endpoints present in the entity store; hence a
raw relationship whose target identity never resolves to an entity
record produces no edge at all (the pair is dropped), while the entity
store itself — an input that Phase 3 never mutates — keeps its source
entry. -/
theorem edges_endpoints_in_store (u : String → String) (am : List (String × String))
    (ents : List String) (raws : List (String × RawRel)) :
    ∀ e ∈ build_edges u am ents raws, e.1.1 ∈ ents ∧ e.1.2 ∈ ents := by
  intro e he
  unfold build_edges consolidatedEdges at he
  obtain ⟨kv, hkv, hsome⟩ := List.mem_filterMap.mp he
  by_cases h : kv.1.2 ∈ ents
  · rw [if_pos h] at hsome
    have he1 : e.1 = kv.1 := by cases hsome; rfl
    refine ⟨?_, by rw [he1]; exact h⟩
    have hkey : kv.1 ∈ (phase3Pairs u am ents raws).map Prod.fst :=
      keys_aggregate_subset _ _ (List.mem_map.mpr ⟨kv, hkv, rfl⟩)
    obtain ⟨kv', hkv', hfst⟩ := List.mem_map.mp hkey
    obtain ⟨sr, _, hsome'⟩ := List.mem_filterMap.mp hkv'
    by_cases hc : sr.1 ∈ ents ∧
        get_canonical_name u am (normalize_page_title u sr.2.target) ∈ ents
    · rw [if_pos hc] at hsome'
      have : kv'.1 = (sr.1,
          get_canonical_name u am (normalize_page_title u sr.2.target)) := by
        cases hsome'; rfl
      rw [he1, ← hfst, this]
      exact hc.1
    · rw [if_neg hc] at hsome'
      cases hsome'
  · rw [if_neg h] at hsome
    cases hsome

/-- Witness for C3: the concrete edge produced by `A -[enemy]-> B` with
both endpoints stored has both endpoints in the store. -/
theorem edges_endpoints_in_store_witness :
    ("A" : String) ∈ ["A", "B"] ∧ ("B" : String) ∈ ["A", "B"] :=
  edges_endpoints_in_store id [] ["A", "B"] [("A", RawRel.mk "B" ["enemy"])]
    (("A", "B"), "Enemy") (by decide)

/-- C10: canonical-name lookup is total and falls back to identity.
For every identity `x`, `get_canonical_name` returns the alias-map
entry of the normalized title when one exists and otherwise the
normalized title itself — an unresolved identity is never an error or a
missing value. -/
theorem get_canonical_name_total (u : String → String) (am : List (String × String))
    (x : String) :
    (∀ c, slookup am (normalize_page_title u x) = some c →
      get_canonical_name u am x = c) ∧
    (slookup am (normalize_page_title u x) = none →
      get_canonical_name u am x = normalize_page_title u x) := by
  constructor
  · intro c h
    show (match slookup am (normalize_page_title u x) with
      | some c => c
      | none => normalize_page_title u x) = c
    rw [h]
  · intro h
    show (match slookup am (normalize_page_title u x) with
      | some c => c
      | none => normalize_page_title u x) = normalize_page_title u x
    rw [h]

/-- Witness for C10: a mapped identity follows the alias map; an
unmapped identity passes through as its own canonical name. -/
theorem get_canonical_name_total_witness :
    get_canonical_name id [("A", "B")] "A" = "B" ∧
    get_canonical_name id [] "C" = "C" :=
  ⟨(get_canonical_name_total id [("A", "B")] "A").1 "B" (by decide),
   (get_canonical_name_total id [] "C").2 (by decide)⟩

/-- C6: type short-circuit.  Any title matching one of the episode
patterns is classified `('episode', 1.0)` immediately, for every
possible page text and LLM-oracle answer — the oracle is never
consulted and the page content never read. -/
theorem episode_title_short_circuit (title : String)
    (h : is_episode_title title = true) :
    ∀ oracle : TypeOracle, detect_page_type oracle title = ("episode", 1) := by
  intro oracle
  unfold detect_page_type
  rw [if_pos h]

/-- Witness for C6: "The Fear of Death" matches the first episode
pattern and short-circuits even against an oracle that would say
`character` with confidence 0.9 over a non-empty page. -/
theorem episode_title_short_circuit_witness :
    is_episode_title "The Fear of Death" = true ∧
    detect_page_type (TypeOracle.mk true "character" (9/10)) "The Fear of Death" =
      ("episode", 1) :=
  ⟨by decide, episode_title_short_circuit "The Fear of Death" (by decide) _⟩

/-- C4: hard-veto precedence.  A candidate page whose infobox
explicitly lists campaigns that do not include the target campaign is
rejected with confidence 0.0, whatever every other page signal, oracle
answer, title or label is — the veto fires before any type, name or
heuristic scoring. -/
theorem wrong_campaign_hard_veto (target : Nat) (p : CandidatePage)
    (page_title node_label node_type : String)
    (hne : p.infobox_campaigns ≠ []) (hout : target ∉ p.infobox_campaigns) :
    fetch_and_validate target p page_title node_label node_type =
      ValidationResult.mk 0 false := by
  unfold fetch_and_validate
  rw [if_pos ⟨hne, hout⟩]

/-- Witness for C4: a campaign-2 infobox page that would otherwise
score perfectly (LLM type match with confidence 1.0, episode-free
header, confirming match oracle) is still rejected for target
campaign 4. -/
theorem wrong_campaign_hard_veto_witness :
    ([2] : List Nat) ≠ [] ∧ (4 : Nat) ∉ ([2] : List Nat) ∧
    fetch_and_validate 4
      (CandidatePage.mk [2] [2] false (TypeOracle.mk true "character" 1)
        none 0 false true 1)
      "Shadia" "Shadia" "character" = ValidationResult.mk 0 false :=
  ⟨by decide, by decide,
   wrong_campaign_hard_veto 4
     (CandidatePage.mk [2] [2] false (TypeOracle.mk true "character" 1)
       none 0 false true 1)
     "Shadia" "Shadia" "character" (by decide) (by decide)⟩

/-- In the Shadia scenario the label has no parenthetical suffix and no
honorific, so the only search query is the label itself. -/
theorem shadia_queries : search_queries_of "Shadia Fang" = ["Shadia Fang"] := by decide

/-- Search score of candidate "Shadia" (size 5000) for query
"Shadia Fang": word coverage 1/2 gives 25, the size bonus gives 35. -/
theorem shadia_score : score_search_result "Shadia Fang" "Shadia" 5000 = 35 := by
  have e1 : pyLower "Shadia" = pyLower "Shadia Fang" ↔ False := iff_false_intro (by decide)
  have e2 : ((wordFinset "Shadia Fang") ∩ (wordFinset "Shadia")).card = 1 := by decide
  have e3 : (wordFinset "Shadia Fang").card = 2 := by decide
  have e4 : wordFinset "Shadia Fang" = ∅ ↔ False := iff_false_intro (by decide)
  have e5 : is_episode_title "Shadia" = false := by decide
  norm_num [score_search_result, e1, e2, e3, e4, e5]

/-- C5 (amended): an identity present in the manual-override table has
its override target validated against the relaxed threshold 0.35
instead of the standard 0.4, so the override path succeeds for every
validation confidence above 0.35 whatever the search would return; in
the Shadia scenario this separates the paths for any confidence
strictly between 0.35 and 0.4 — at confidence 0.38, resolution
succeeds via the override `"Shadia Fang" → "Shadia"` and fails via the
standard search path.  (At the spec's literal 0.5 both paths succeed;
see the counterexample.) -/
theorem manual_override_rescue :
    (∀ (env : ResolveEnv) (label ty T : String),
      slookup env.overrides label = some T → 35/100 < env.validate T →
      fetch_wiki_image env label ty = some (T, env.validate T)) ∧
    fetch_wiki_image ⟨[("Shadia Fang", "Shadia")], shadiaSearch, shadiaValidate⟩
      "Shadia Fang" "character" = some ("Shadia", 38/100) ∧
    fetch_wiki_image ⟨[], shadiaSearch, shadiaValidate⟩ "Shadia Fang" "character" =
      none := by
  refine ⟨?_, ?_, ?_⟩
  · intro env label ty T hov hc
    unfold fetch_wiki_image
    rw [hov]
    show (if 35/100 < env.validate T then some (T, env.validate T)
      else finishSearch (scanQueries env.validate env.search
        (search_queries_of label) none)) = some (T, env.validate T)
    rw [if_pos hc]
  · norm_num [fetch_wiki_image, slookup, shadiaValidate]
  · norm_num [fetch_wiki_image, slookup, finishSearch, scanQueries, scanResults,
      bestConf, shadiaSearch, shadiaValidate, shadia_queries, shadia_score]

/-- Witness for C5: the override branch accepts "Shadia" at the
concrete confidence 0.38. -/
theorem manual_override_rescue_witness :
    fetch_wiki_image ⟨[("Shadia Fang", "Shadia")], shadiaSearch, shadiaValidate⟩
      "Shadia Fang" "character" = some ("Shadia", shadiaValidate "Shadia") :=
  manual_override_rescue.1
    ⟨[("Shadia Fang", "Shadia")], shadiaSearch, shadiaValidate⟩
    "Shadia Fang" "character" "Shadia" (by decide) (by norm_num [shadiaValidate])

/-- Counterexample to C5 as stated: with validation confidence 0.5 —
the number the spec's scenario gives — the standard (no-override)
search path does NOT fail: 0.5 clears the standard 0.4 acceptance
threshold, so "Shadia" is resolved even without the override. -/
theorem override_scenario_half_standard_path_accepts :
    fetch_wiki_image ⟨[], shadiaSearch, shadiaValidateHalf⟩ "Shadia Fang"
      "character" = some ("Shadia", 1/2) := by
  norm_num [fetch_wiki_image, slookup, finishSearch, scanQueries, scanResults,
    bestConf, shadiaSearch, shadiaValidateHalf, shadia_queries, shadia_score]

/-- Appending a fresh key to an association list makes it found. -/
theorem slookup_append_of_none {β : Type} {m : List (String × β)} {k : String}
    (h : slookup m k = none) (v : β) :
    slookup (m ++ [(k, v)]) k = some v := by
  induction m with
  | nil => simp [slookup]
  | cons kv rest ih =>
    obtain ⟨k0, v0⟩ := kv
    by_cases hk : k0 = k
    · simp [slookup, hk] at h
    · simp only [List.cons_append, slookup, if_neg hk] at h ⊢
      exact ih h

/-- After any `fetch_wiki_image_cached` call the cache holds the
returned outcome under the node label. -/
theorem image_cache_stores (env : ResolveEnv) (nreq : Nat)
    (cache : List (String × Option (String × ℚ))) (label ty : String) :
    slookup (fetch_wiki_image_cached env nreq cache label ty).2.1 label =
      some (fetch_wiki_image_cached env nreq cache label ty).1 := by
  unfold fetch_wiki_image_cached
  cases h : slookup cache label with
  | some r => simpa using h
  | none => simpa using slookup_append_of_none h _

/-- After any `fetch_and_validate_cached` call the cache holds the
returned outcome under the `title|type` key. -/
theorem validation_cache_stores (body : String → String → ValidationResult × Nat)
    (cache : List (String × ValidationResult)) (title ty : String) :
    slookup (fetch_and_validate_cached body cache title ty).2.1
        (title ++ "|" ++ ty) =
      some (fetch_and_validate_cached body cache title ty).1 := by
  unfold fetch_and_validate_cached
  cases h : slookup cache (title ++ "|" ++ ty) with
  | some r => simpa using h
  | none => simpa using slookup_append_of_none h _

/-- C7: resolution is idempotent and cached.  For every cache state,
calling the resolver a second time for the same node label returns the
same outcome, leaves the cache unchanged and performs zero network
requests; every outcome — success or failure — is stored in the cache;
and a second full validation of the same (candidate title,
expected type) pair likewise returns the cached outcome with zero
network requests. -/
theorem resolution_idempotent (env : ResolveEnv) (nreq : Nat)
    (cache : List (String × Option (String × ℚ))) (label ty : String)
    (body : String → String → ValidationResult × Nat)
    (vcache : List (String × ValidationResult)) (title vty : String) :
    (fetch_wiki_image_cached env nreq
        (fetch_wiki_image_cached env nreq cache label ty).2.1 label ty).1 =
      (fetch_wiki_image_cached env nreq cache label ty).1 ∧
    (fetch_wiki_image_cached env nreq
        (fetch_wiki_image_cached env nreq cache label ty).2.1 label ty).2.1 =
      (fetch_wiki_image_cached env nreq cache label ty).2.1 ∧
    (fetch_wiki_image_cached env nreq
        (fetch_wiki_image_cached env nreq cache label ty).2.1 label ty).2.2 = 0 ∧
    slookup (fetch_wiki_image_cached env nreq cache label ty).2.1 label =
      some (fetch_wiki_image_cached env nreq cache label ty).1 ∧
    (fetch_and_validate_cached body
        (fetch_and_validate_cached body vcache title vty).2.1 title vty).1 =
      (fetch_and_validate_cached body vcache title vty).1 ∧
    (fetch_and_validate_cached body
        (fetch_and_validate_cached body vcache title vty).2.1 title vty).2.2 = 0 := by
  have hi := image_cache_stores env nreq cache label ty
  have hv := validation_cache_stores body vcache title vty
  have hit : ∀ (C : List (String × Option (String × ℚ))) (R : Option (String × ℚ)),
      slookup C label = some R →
      fetch_wiki_image_cached env nreq C label ty = (R, C, 0) := by
    intro C R h
    unfold fetch_wiki_image_cached
    rw [h]
  have vhit : ∀ (C : List (String × ValidationResult)) (R : ValidationResult),
      slookup C (title ++ "|" ++ vty) = some R →
      fetch_and_validate_cached body C title vty = (R, C, 0) := by
    intro C R h
    unfold fetch_and_validate_cached
    rw [h]
  have hre := hit _ _ hi
  have hrev := vhit _ _ hv
  refine ⟨?_, ?_, ?_, hi, ?_, ?_⟩
  · rw [hre]
  · rw [hre]
  · rw [hre]
  · rw [hrev]
  · rw [hrev]

/-- Every state the crawl loop returns satisfies the loop's exit
condition: the queue is empty or the budget is spent. -/
theorem crawlLoop_terminal (u canon : String → String)
    (discover : String → List String) (limit : Nat) :
    ∀ (s : CrawlState),
      (crawlLoop u canon discover limit s).queue = [] ∨
        limit ≤ (crawlLoop u canon discover limit s).count
  | ⟨[], p, c⟩ => by
    rw [crawlLoop.eq_def]
    exact Or.inl rfl
  | ⟨page_title :: qrest, p, c⟩ => by
    rw [crawlLoop.eq_def]
    dsimp only
    by_cases hlt : c < limit
    · rw [dif_pos hlt]
      by_cases hproc : canon (normalize_page_title u page_title) ∈ p
      · rw [if_pos hproc]
        exact crawlLoop_terminal u canon discover limit ⟨qrest, p, c⟩
      · rw [if_neg hproc]
        by_cases hne : canon (normalize_page_title u page_title) ≠ ""
        · rw [if_pos hne]
          exact crawlLoop_terminal u canon discover limit
            ⟨enqueueTargets u canon
               (p ++ [canon (normalize_page_title u page_title)])
               qrest (discover (normalize_page_title u page_title)),
             p ++ [canon (normalize_page_title u page_title)], c + 1⟩
        · rw [if_neg hne]
          exact crawlLoop_terminal u canon discover limit ⟨qrest, p, c + 1⟩
    · rw [dif_neg hlt]
      refine Or.inr ?_
      show limit ≤ c
      omega
termination_by s => (limit - s.count, s.queue.length)
decreasing_by
  all_goals
    first
    | (apply Prod.Lex.left
       try simp
       omega)
    | (apply Prod.Lex.right
       simp)

/-- The scenario run, stepped to its terminal state: the five seeds
are processed, then the first two discovered targets, and the budget
of 7 is exhausted. -/
theorem scenario_crawl_final :
    crawlLoop id scenarioCanon scenarioDiscover 7 ⟨scenarioSeeds, [], 0⟩ =
      ⟨["S1T2", "S1T3", "S1T4", "S1T5", "S1T6", "S1T7", "S1T8", "S1T9", "S2T0", "S2T1", "S2T2", "S2T3", "S2T4", "S2T5", "S2T6", "S2T7", "S2T8", "S2T9", "S3T0", "S3T1", "S3T2", "S3T3", "S3T4", "S3T5", "S3T6", "S3T7", "S3T8", "S3T9", "S4T0", "S4T1", "S4T2", "S4T3", "S4T4", "S4T5", "S4T6", "S4T7", "S4T8", "S4T9", "S5T0", "S5T1", "S5T2", "S5T3", "S5T4", "S5T5", "S5T6", "S5T7", "S5T8", "S5T9"], ["S1", "S2", "S3", "S4", "S5", "S1T0", "S1T1"], 7⟩ := by
  have step1 : crawlLoop id scenarioCanon scenarioDiscover 7 ⟨scenarioSeeds, [], 0⟩ =
      crawlLoop id scenarioCanon scenarioDiscover 7 ⟨["S2", "S3", "S4", "S5", "S1T0", "S1T1", "S1T2", "S1T3", "S1T4", "S1T5", "S1T6", "S1T7", "S1T8", "S1T9"], ["S1"], 1⟩ := by
    rw [crawlLoop.eq_def]
    dsimp only [scenarioSeeds]
    rw [dif_pos (by norm_num), if_neg (by decide), if_pos (by decide)]
    rfl
  have step2 : crawlLoop id scenarioCanon scenarioDiscover 7 ⟨["S2", "S3", "S4", "S5", "S1T0", "S1T1", "S1T2", "S1T3", "S1T4", "S1T5", "S1T6", "S1T7", "S1T8", "S1T9"], ["S1"], 1⟩ =
      crawlLoop id scenarioCanon scenarioDiscover 7 ⟨["S3", "S4", "S5", "S1T0", "S1T1", "S1T2", "S1T3", "S1T4", "S1T5", "S1T6", "S1T7", "S1T8", "S1T9", "S2T0", "S2T1", "S2T2", "S2T3", "S2T4", "S2T5", "S2T6", "S2T7", "S2T8", "S2T9"], ["S1", "S2"], 2⟩ := by
    rw [crawlLoop.eq_def]
    dsimp only
    rw [dif_pos (by norm_num), if_neg (by decide), if_pos (by decide)]
    rfl
  have step3 : crawlLoop id scenarioCanon scenarioDiscover 7 ⟨["S3", "S4", "S5", "S1T0", "S1T1", "S1T2", "S1T3", "S1T4", "S1T5", "S1T6", "S1T7", "S1T8", "S1T9", "S2T0", "S2T1", "S2T2", "S2T3", "S2T4", "S2T5", "S2T6", "S2T7", "S2T8", "S2T9"], ["S1", "S2"], 2⟩ =
      crawlLoop id scenarioCanon scenarioDiscover 7 ⟨["S4", "S5", "S1T0", "S1T1", "S1T2", "S1T3", "S1T4", "S1T5", "S1T6", "S1T7", "S1T8", "S1T9", "S2T0", "S2T1", "S2T2", "S2T3", "S2T4", "S2T5", "S2T6", "S2T7", "S2T8", "S2T9", "S3T0", "S3T1", "S3T2", "S3T3", "S3T4", "S3T5", "S3T6", "S3T7", "S3T8", "S3T9"], ["S1", "S2", "S3"], 3⟩ := by
    rw [crawlLoop.eq_def]
    dsimp only
    rw [dif_pos (by norm_num), if_neg (by decide), if_pos (by decide)]
    rfl
  have step4 : crawlLoop id scenarioCanon scenarioDiscover 7 ⟨["S4", "S5", "S1T0", "S1T1", "S1T2", "S1T3", "S1T4", "S1T5", "S1T6", "S1T7", "S1T8", "S1T9", "S2T0", "S2T1", "S2T2", "S2T3", "S2T4", "S2T5", "S2T6", "S2T7", "S2T8", "S2T9", "S3T0", "S3T1", "S3T2", "S3T3", "S3T4", "S3T5", "S3T6", "S3T7", "S3T8", "S3T9"], ["S1", "S2", "S3"], 3⟩ =
      crawlLoop id scenarioCanon scenarioDiscover 7 ⟨["S5", "S1T0", "S1T1", "S1T2", "S1T3", "S1T4", "S1T5", "S1T6", "S1T7", "S1T8", "S1T9", "S2T0", "S2T1", "S2T2", "S2T3", "S2T4", "S2T5", "S2T6", "S2T7", "S2T8", "S2T9", "S3T0", "S3T1", "S3T2", "S3T3", "S3T4", "S3T5", "S3T6", "S3T7", "S3T8", "S3T9", "S4T0", "S4T1", "S4T2", "S4T3", "S4T4", "S4T5", "S4T6", "S4T7", "S4T8", "S4T9"], ["S1", "S2", "S3", "S4"], 4⟩ := by
    rw [crawlLoop.eq_def]
    dsimp only
    rw [dif_pos (by norm_num), if_neg (by decide), if_pos (by decide)]
    rfl
  have step5 : crawlLoop id scenarioCanon scenarioDiscover 7 ⟨["S5", "S1T0", "S1T1", "S1T2", "S1T3", "S1T4", "S1T5", "S1T6", "S1T7", "S1T8", "S1T9", "S2T0", "S2T1", "S2T2", "S2T3", "S2T4", "S2T5", "S2T6", "S2T7", "S2T8", "S2T9", "S3T0", "S3T1", "S3T2", "S3T3", "S3T4", "S3T5", "S3T6", "S3T7", "S3T8", "S3T9", "S4T0", "S4T1", "S4T2", "S4T3", "S4T4", "S4T5", "S4T6", "S4T7", "S4T8", "S4T9"], ["S1", "S2", "S3", "S4"], 4⟩ =
      crawlLoop id scenarioCanon scenarioDiscover 7 ⟨["S1T0", "S1T1", "S1T2", "S1T3", "S1T4", "S1T5", "S1T6", "S1T7", "S1T8", "S1T9", "S2T0", "S2T1", "S2T2", "S2T3", "S2T4", "S2T5", "S2T6", "S2T7", "S2T8", "S2T9", "S3T0", "S3T1", "S3T2", "S3T3", "S3T4", "S3T5", "S3T6", "S3T7", "S3T8", "S3T9", "S4T0", "S4T1", "S4T2", "S4T3", "S4T4", "S4T5", "S4T6", "S4T7", "S4T8", "S4T9", "S5T0", "S5T1", "S5T2", "S5T3", "S5T4", "S5T5", "S5T6", "S5T7", "S5T8", "S5T9"], ["S1", "S2", "S3", "S4", "S5"], 5⟩ := by
    rw [crawlLoop.eq_def]
    dsimp only
    rw [dif_pos (by norm_num), if_neg (by decide), if_pos (by decide)]
    rfl
  have step6 : crawlLoop id scenarioCanon scenarioDiscover 7 ⟨["S1T0", "S1T1", "S1T2", "S1T3", "S1T4", "S1T5", "S1T6", "S1T7", "S1T8", "S1T9", "S2T0", "S2T1", "S2T2", "S2T3", "S2T4", "S2T5", "S2T6", "S2T7", "S2T8", "S2T9", "S3T0", "S3T1", "S3T2", "S3T3", "S3T4", "S3T5", "S3T6", "S3T7", "S3T8", "S3T9", "S4T0", "S4T1", "S4T2", "S4T3", "S4T4", "S4T5", "S4T6", "S4T7", "S4T8", "S4T9", "S5T0", "S5T1", "S5T2", "S5T3", "S5T4", "S5T5", "S5T6", "S5T7", "S5T8", "S5T9"], ["S1", "S2", "S3", "S4", "S5"], 5⟩ =
      crawlLoop id scenarioCanon scenarioDiscover 7 ⟨["S1T1", "S1T2", "S1T3", "S1T4", "S1T5", "S1T6", "S1T7", "S1T8", "S1T9", "S2T0", "S2T1", "S2T2", "S2T3", "S2T4", "S2T5", "S2T6", "S2T7", "S2T8", "S2T9", "S3T0", "S3T1", "S3T2", "S3T3", "S3T4", "S3T5", "S3T6", "S3T7", "S3T8", "S3T9", "S4T0", "S4T1", "S4T2", "S4T3", "S4T4", "S4T5", "S4T6", "S4T7", "S4T8", "S4T9", "S5T0", "S5T1", "S5T2", "S5T3", "S5T4", "S5T5", "S5T6", "S5T7", "S5T8", "S5T9"], ["S1", "S2", "S3", "S4", "S5", "S1T0"], 6⟩ := by
    rw [crawlLoop.eq_def]
    dsimp only
    rw [dif_pos (by norm_num), if_neg (by decide), if_pos (by decide)]
    rfl
  have step7 : crawlLoop id scenarioCanon scenarioDiscover 7 ⟨["S1T1", "S1T2", "S1T3", "S1T4", "S1T5", "S1T6", "S1T7", "S1T8", "S1T9", "S2T0", "S2T1", "S2T2", "S2T3", "S2T4", "S2T5", "S2T6", "S2T7", "S2T8", "S2T9", "S3T0", "S3T1", "S3T2", "S3T3", "S3T4", "S3T5", "S3T6", "S3T7", "S3T8", "S3T9", "S4T0", "S4T1", "S4T2", "S4T3", "S4T4", "S4T5", "S4T6", "S4T7", "S4T8", "S4T9", "S5T0", "S5T1", "S5T2", "S5T3", "S5T4", "S5T5", "S5T6", "S5T7", "S5T8", "S5T9"], ["S1", "S2", "S3", "S4", "S5", "S1T0"], 6⟩ =
      crawlLoop id scenarioCanon scenarioDiscover 7 ⟨["S1T2", "S1T3", "S1T4", "S1T5", "S1T6", "S1T7", "S1T8", "S1T9", "S2T0", "S2T1", "S2T2", "S2T3", "S2T4", "S2T5", "S2T6", "S2T7", "S2T8", "S2T9", "S3T0", "S3T1", "S3T2", "S3T3", "S3T4", "S3T5", "S3T6", "S3T7", "S3T8", "S3T9", "S4T0", "S4T1", "S4T2", "S4T3", "S4T4", "S4T5", "S4T6", "S4T7", "S4T8", "S4T9", "S5T0", "S5T1", "S5T2", "S5T3", "S5T4", "S5T5", "S5T6", "S5T7", "S5T8", "S5T9"], ["S1", "S2", "S3", "S4", "S5", "S1T0", "S1T1"], 7⟩ := by
    rw [crawlLoop.eq_def]
    dsimp only
    rw [dif_pos (by norm_num), if_neg (by decide), if_pos (by decide)]
    rfl
  have step8 : crawlLoop id scenarioCanon scenarioDiscover 7 ⟨["S1T2", "S1T3", "S1T4", "S1T5", "S1T6", "S1T7", "S1T8", "S1T9", "S2T0", "S2T1", "S2T2", "S2T3", "S2T4", "S2T5", "S2T6", "S2T7", "S2T8", "S2T9", "S3T0", "S3T1", "S3T2", "S3T3", "S3T4", "S3T5", "S3T6", "S3T7", "S3T8", "S3T9", "S4T0", "S4T1", "S4T2", "S4T3", "S4T4", "S4T5", "S4T6", "S4T7", "S4T8", "S4T9", "S5T0", "S5T1", "S5T2", "S5T3", "S5T4", "S5T5", "S5T6", "S5T7", "S5T8", "S5T9"], ["S1", "S2", "S3", "S4", "S5", "S1T0", "S1T1"], 7⟩ =
      ⟨["S1T2", "S1T3", "S1T4", "S1T5", "S1T6", "S1T7", "S1T8", "S1T9", "S2T0", "S2T1", "S2T2", "S2T3", "S2T4", "S2T5", "S2T6", "S2T7", "S2T8", "S2T9", "S3T0", "S3T1", "S3T2", "S3T3", "S3T4", "S3T5", "S3T6", "S3T7", "S3T8", "S3T9", "S4T0", "S4T1", "S4T2", "S4T3", "S4T4", "S4T5", "S4T6", "S4T7", "S4T8", "S4T9", "S5T0", "S5T1", "S5T2", "S5T3", "S5T4", "S5T5", "S5T6", "S5T7", "S5T8", "S5T9"], ["S1", "S2", "S3", "S4", "S5", "S1T0", "S1T1"], 7⟩ := by
    rw [crawlLoop.eq_def]
    dsimp only
    rw [dif_neg (by norm_num)]
  rw [step1, step2, step3, step4, step5, step6, step7, step8]

/-- C8: the crawl loop stops exactly when the queue is empty or the
processed-count budget is reached (termination itself is the totality
of `crawlLoop`, established by its lexicographic measure), and in the
spec's scenario — five seed titles each discovering ten fresh unique
targets, with budget 7 — the run stops having processed exactly 7
distinct canonical entities (the five seeds and the first two
discovered targets) and leaves the remaining 48 discovered targets
unprocessed. -/
theorem crawl_budget_exhaustion :
    (∀ (u canon : String → String) (discover : String → List String)
        (limit : Nat) (s : CrawlState),
      (crawlLoop u canon discover limit s).queue = [] ∨
        limit ≤ (crawlLoop u canon discover limit s).count) ∧
    (crawlLoop id scenarioCanon scenarioDiscover 7
        ⟨scenarioSeeds, [], 0⟩).count = 7 ∧
    (crawlLoop id scenarioCanon scenarioDiscover 7
        ⟨scenarioSeeds, [], 0⟩).processed =
      ["S1", "S2", "S3", "S4", "S5", "S1T0", "S1T1"] ∧
    (crawlLoop id scenarioCanon scenarioDiscover 7
        ⟨scenarioSeeds, [], 0⟩).processed.Nodup ∧
    (scenarioTargets.filter (fun t =>
        t ∉ (crawlLoop id scenarioCanon scenarioDiscover 7
          ⟨scenarioSeeds, [], 0⟩).processed)).length = 48 := by
  refine ⟨crawlLoop_terminal, ?_, ?_, ?_, ?_⟩
  · rw [scenario_crawl_final]
  · rw [scenario_crawl_final]
  · rw [scenario_crawl_final]
    decide
  · rw [scenario_crawl_final]
    decide


/-- A character of a single-character replacement is the replacement
or an untouched original. -/
theorem mem_substChar {a b c : Char} {l : List Char} (h : c ∈ substChar a b l) :
    c = b ∨ (c ∈ l ∧ c ≠ a) := by
  unfold substChar at h
  obtain ⟨d, hd, hdc⟩ := List.mem_map.mp h
  by_cases hda : d = a
  · subst hda
    rw [if_pos rfl] at hdc
    exact Or.inl hdc.symm
  · rw [if_neg hda] at hdc
    subst hdc
    exact Or.inr ⟨hd, hda⟩

/-- Whitespace collapsing introduces no character. -/
theorem mem_collapseSpaces : ∀ (l : List Char) (c : Char),
    c ∈ collapseSpaces l → c ∈ l := by
  intro l
  induction l with
  | nil => intro c h; exact h
  | cons a rest ih =>
    intro c h
    cases rest with
    | nil =>
      simp only [collapseSpaces] at h
      exact h
    | cons d rest' =>
      simp only [collapseSpaces] at h
      by_cases had : a = ' ' ∧ d = ' '
      · rw [if_pos had] at h
        exact List.mem_cons_of_mem _ (ih c h)
      · rw [if_neg had] at h
        rcases List.mem_cons.mp h with rfl | h'
        · exact List.mem_cons_self _ _
        · exact List.mem_cons_of_mem _ (ih c h')

/-- Stripping introduces no character. -/
theorem mem_pyStripChars {c : Char} {l : List Char} (h : c ∈ pyStripChars l) :
    c ∈ l := by
  unfold pyStripChars at h
  rw [List.mem_reverse] at h
  have h1 := (List.dropWhile_sublist (l :=
    (l.dropWhile Char.isWhitespace).reverse) (p := Char.isWhitespace)).subset h
  rw [List.mem_reverse] at h1
  exact (List.dropWhile_sublist (l := l) (p := Char.isWhitespace)).subset h1

/-- After ASCII reduction and backslash doubling every character has a
code point at most 127. -/
theorem mem_doubled_ascii {nfd : String → String} {s : String} {c : Char}
    (h : c ∈ (to_ascii_safe nfd s).flatMap (fun c =>
      if c = backslashChar then [backslashChar, backslashChar] else [c])) :
    c.toNat ≤ 127 := by
  rw [List.mem_flatMap] at h
  obtain ⟨d, hd, hc⟩ := h
  have hd127 : d.toNat ≤ 127 := by
    unfold to_ascii_safe at hd
    rw [List.mem_filter] at hd
    exact of_decide_eq_true hd.2
  by_cases hdb : d = backslashChar
  · rw [if_pos hdb] at hc
    rcases List.mem_cons.mp hc with rfl | hc'
    · decide
    · rcases List.mem_cons.mp hc' with rfl | hc''
      · decide
      · cases hc''
  · rw [if_neg hdb] at hc
    rcases List.mem_cons.mp hc with rfl | hc'
    · exact hd127
    · cases hc'

/-- C9 (amended): for every input string (and every behaviour of the
Unicode accent-stripper), every character the GML escaper emits is an
ASCII character with code at least 32 — printable ASCII or DEL — and
is never a double quote, bracket, brace, semicolon or pipe; control
characters below 32 (newlines, tabs, carriage returns) are gone.  (DEL,
code 127, is the one control character the `ord(char) >= 32` filter
keeps; see the counterexample.) -/
theorem escape_gml_ascii_safe (nfd : String → String) (s : String) :
    ∀ c ∈ escape_gml_string nfd s,
      32 ≤ c.toNat ∧ c.toNat ≤ 127 ∧ c ≠ quoteChar ∧ c ≠ '[' ∧ c ≠ ']' ∧
        c ≠ lbraceChar ∧ c ≠ rbraceChar ∧ c ≠ ';' ∧ c ≠ '|' := by
  intro c hc
  unfold escape_gml_string at hc
  have h12 := mem_collapseSpaces _ _ (mem_pyStripChars hc)
  rw [List.mem_filter] at h12
  obtain ⟨h11, hge⟩ := h12
  have hge32 : 32 ≤ c.toNat := of_decide_eq_true hge
  rcases mem_substChar h11 with rfl | ⟨h10, hne10⟩
  · exact ⟨by decide, by decide, by decide, by decide, by decide, by decide,
      by decide, by decide, by decide⟩
  rcases mem_substChar h10 with rfl | ⟨h9, hne9⟩
  · exact ⟨by decide, by decide, by decide, by decide, by decide, by decide,
      by decide, by decide, by decide⟩
  rcases mem_substChar h9 with rfl | ⟨h8, hne8⟩
  · exact ⟨by decide, by decide, by decide, by decide, by decide, by decide,
      by decide, by decide, by decide⟩
  rcases mem_substChar h8 with rfl | ⟨h7, hne7⟩
  · exact ⟨by decide, by decide, by decide, by decide, by decide, by decide,
      by decide, by decide, by decide⟩
  rcases mem_substChar h7 with rfl | ⟨h6, hne6⟩
  · exact ⟨by decide, by decide, by decide, by decide, by decide, by decide,
      by decide, by decide, by decide⟩
  rcases mem_substChar h6 with rfl | ⟨h5, hne5⟩
  · exact ⟨by decide, by decide, by decide, by decide, by decide, by decide,
      by decide, by decide, by decide⟩
  rcases mem_substChar h5 with rfl | ⟨h4, hne4⟩
  · exact ⟨by decide, by decide, by decide, by decide, by decide, by decide,
      by decide, by decide, by decide⟩
  rcases mem_substChar h4 with rfl | ⟨h3, hne3⟩
  · exact ⟨by decide, by decide, by decide, by decide, by decide, by decide,
      by decide, by decide, by decide⟩
  rcases mem_substChar h3 with rfl | ⟨h2, hne2⟩
  · exact ⟨by decide, by decide, by decide, by decide, by decide, by decide,
      by decide, by decide, by decide⟩
  rcases mem_substChar h2 with rfl | ⟨h1, hne1⟩
  · exact ⟨by decide, by decide, by decide, by decide, by decide, by decide,
      by decide, by decide, by decide⟩
  exact ⟨hge32, mem_doubled_ascii h1, hne1, hne7, hne8, hne9, hne10, hne5, hne6⟩

/-- Witness for C9: a character of the concrete escape of "a[b]" obeys
the safety bound. -/
theorem escape_gml_ascii_safe_witness :
    32 ≤ 'a'.toNat ∧ 'a'.toNat ≤ 127 ∧ 'a' ≠ quoteChar ∧ 'a' ≠ '[' ∧
      'a' ≠ ']' ∧ 'a' ≠ lbraceChar ∧ 'a' ≠ rbraceChar ∧ 'a' ≠ ';' ∧ 'a' ≠ '|' :=
  escape_gml_ascii_safe id (String.mk ['a', '[', 'b', ']']) 'a' (by decide)

/-- Counterexample to C9 as stated: on the one-character input DEL
(code 127) the escaper returns DEL unchanged — a control character that
is not printable ASCII — because the cleanup filter keeps every code
point at least 32 and `ord('\x7f') = 127 >= 32`.  (`remove_accents` is
instantiated with the identity, which is its behaviour on this
ASCII-only input: NFD fixes it and its category is not Mn.) -/
theorem escape_gml_del_retained :
    escape_gml_string id (String.mk [delChar]) = [delChar] ∧
      delChar.toNat = 127 ∧ ¬ delChar.toNat ≤ 126 := by
  refine ⟨by decide, by decide, by decide⟩

end CritGraph
